import Mathlib

/-!
Verification of the TerritoryCycle ride-recording pipeline.

This file gives a shallow embedding of the core client-side pipeline of the
TerritoryCycle repository (src/src/App.jsx, src/src/supabase.js): the sample
filter and activity state machine of the RidePage component, the route
fingerprint (SHA-256 over the comma-joined visited hex cells), the unlock
evaluator of the SummaryPage, and the XP-progress helper.  External
collaborators (the h3-js cell indexer and the transcendental haversine
distance) are modelled as parameters of an environment record; everything
else is translated from the JavaScript source.
-/

set_option maxRecDepth 100000

namespace TerritoryCycle

/-! ## SHA-256 (the digest collaborator, crypto.subtle.digest)

The route fingerprint is `sha256(cellArr.join(','))` producing a lowercase
hex string.  We embed SHA-256 itself (FIPS 180-4) as a pure function over
byte lists, with 32-bit words represented as naturals reduced mod 2^32. -/

/-- Truncation of a natural number to a 32-bit word. -/
def w32 (n : Nat) : Nat := n % 4294967296

/-- Right rotation of a 32-bit word by n bits. -/
def rotr32 (n x : Nat) : Nat := x / 2 ^ n + x % 2 ^ n * 2 ^ (32 - n)

/-- Logical right shift of a 32-bit word by n bits. -/
def shr32 (n x : Nat) : Nat := x / 2 ^ n

/-- Bitwise complement of a 32-bit word. -/
def not32 (x : Nat) : Nat := 4294967295 - x

/-- Big sigma-0 function of SHA-256. -/
def bsig0 (x : Nat) : Nat := rotr32 2 x ^^^ rotr32 13 x ^^^ rotr32 22 x

/-- Big sigma-1 function of SHA-256. -/
def bsig1 (x : Nat) : Nat := rotr32 6 x ^^^ rotr32 11 x ^^^ rotr32 25 x

/-- Small sigma-0 function of SHA-256. -/
def ssig0 (x : Nat) : Nat := rotr32 7 x ^^^ rotr32 18 x ^^^ shr32 3 x

/-- Small sigma-1 function of SHA-256. -/
def ssig1 (x : Nat) : Nat := rotr32 17 x ^^^ rotr32 19 x ^^^ shr32 10 x

/-- Choice function of SHA-256. -/
def chF (x y z : Nat) : Nat := (x &&& y) ^^^ (not32 x &&& z)

/-- Majority function of SHA-256. -/
def majF (x y z : Nat) : Nat := (x &&& y) ^^^ (x &&& z) ^^^ (y &&& z)

/-- Round constants of SHA-256 (FIPS 180-4, written in decimal). -/
def K256 : List Nat :=
  [1116352408, 1899447441, 3049323471, 3921009573, 961987163,
   1508970993, 2453635748, 2870763221, 3624381080, 310598401,
   607225278, 1426881987, 1925078388, 2162078206, 2614888103,
   3248222580, 3835390401, 4022224774, 264347078, 604807628,
   770255983, 1249150122, 1555081692, 1996064986, 2554220882,
   2821834349, 2952996808, 3210313671, 3336571891, 3584528711,
   113926993, 338241895, 666307205, 773529912, 1294757372,
   1396182291, 1695183700, 1986661051, 2177026350, 2456956037,
   2730485921, 2820302411, 3259730800, 3345764771, 3516065817,
   3600352804, 4094571909, 275423344, 430227734, 506948616,
   659060556, 883997877, 958139571, 1322822218, 1537002063,
   1747873779, 1955562222, 2024104815, 2227730452, 2361852424,
   2428436474, 2756734187, 3204031479, 3329325298]

/-- Working state of the SHA-256 compression function (registers a..h). -/
structure H8 where
  ra : Nat
  rb : Nat
  rc : Nat
  rd : Nat
  re : Nat
  rf : Nat
  rg : Nat
  rh : Nat
deriving DecidableEq, Repr

/-- Initial hash value of SHA-256 (FIPS 180-4, written in decimal). -/
def IV256 : H8 :=
  ⟨1779033703, 3144134277, 1013904242, 2773480762,
   1359893119, 2600822924, 528734635, 1541459225⟩

/-- Splits a list into `n` consecutive chunks of size `sz`. -/
def chunkBy (sz : Nat) : Nat → List Nat → List (List Nat)
  | 0, _ => []
  | n + 1, l => l.take sz :: chunkBy sz n (l.drop sz)

/-- Big-endian word value of a byte list. -/
def beWord (bs : List Nat) : Nat := bs.foldl (fun acc b => acc * 256 + b) 0

/-- The 16 message-schedule words of one 64-byte chunk. -/
def words16 (c : List Nat) : List Nat := (chunkBy 4 16 c).map beWord

/-- Extends the message schedule by `n` further words. -/
def extendW : Nat → List Nat → List Nat
  | 0, w => w
  | n + 1, w =>
    let L := w.length
    let nw := w32 (ssig1 (w.getD (L - 2) 0) + w.getD (L - 7) 0 +
                   ssig0 (w.getD (L - 15) 0) + w.getD (L - 16) 0)
    extendW n (w ++ [nw])

/-- One round of the SHA-256 compression function, consuming a (constant, word) pair. -/
def roundStep (st : H8) (kw : Nat × Nat) : H8 :=
  let t1 := w32 (st.rh + bsig1 st.re + chF st.re st.rf st.rg + kw.1 + kw.2)
  let t2 := w32 (bsig0 st.ra + majF st.ra st.rb st.rc)
  ⟨w32 (t1 + t2), st.ra, st.rb, st.rc, w32 (st.rd + t1), st.re, st.rf, st.rg⟩

/-- Compression of one 64-byte chunk into the running hash. -/
def compress (hv : H8) (chunk : List Nat) : H8 :=
  let ws := extendW 48 (words16 chunk)
  let f := (K256.zip ws).foldl roundStep hv
  ⟨w32 (hv.ra + f.ra), w32 (hv.rb + f.rb), w32 (hv.rc + f.rc), w32 (hv.rd + f.rd),
   w32 (hv.re + f.re), w32 (hv.rf + f.rf), w32 (hv.rg + f.rg), w32 (hv.rh + f.rh)⟩

/-- Big-endian byte expansion of a value into `n` bytes. -/
def beBytes : Nat → Nat → List Nat
  | 0, _ => []
  | n + 1, v => beBytes n (v / 256) ++ [v % 256]

/-- FIPS 180-4 message padding: a 0x80 byte, zeros, then the 64-bit bit length. -/
def padMsg (m : List Nat) : List Nat :=
  m ++ [128] ++ List.replicate ((119 - m.length % 64) % 64) 0 ++ beBytes 8 (8 * m.length)

/-- UTF-8 encoding of a single code point (TextEncoder). -/
def utf8Bytes (c : Nat) : List Nat :=
  if c < 128 then [c]
  else if c < 2048 then [192 + c / 64, 128 + c % 64]
  else if c < 65536 then [224 + c / 4096, 128 + c / 64 % 64, 128 + c % 64]
  else [240 + c / 262144, 128 + c / 4096 % 64, 128 + c / 64 % 64, 128 + c % 64]

/-- UTF-8 byte sequence of a string (TextEncoder().encode). -/
def strBytes (s : String) : List Nat := (s.toList.map (fun ch => utf8Bytes ch.toNat)).flatten

/-- Lowercase hex digit for a value below 16. -/
def hexChar (n : Nat) : Char := "0123456789abcdef".toList.getD n '0'

/-- Lowercase hex rendering of a value into `n` digits
    (b.toString(16).padStart(2, "0") generalized). -/
def hexWord : Nat → Nat → List Char
  | 0, _ => []
  | n + 1, v => hexWord n (v / 16) ++ [hexChar (v % 16)]

/-- Full SHA-256 digest of a string as a lowercase hex string; this embeds the
    sha256 utility of App.jsx (crypto.subtle.digest over the UTF-8 bytes,
    rendered byte-by-byte as two lowercase hex digits). -/
def sha256 (s : String) : String :=
  let padded := padMsg (strBytes s)
  let final := (chunkBy 64 (padded.length / 64) padded).foldl compress IV256
  String.mk ((([final.ra, final.rb, final.rc, final.rd,
                final.re, final.rf, final.rg, final.rh].map (hexWord 8)).flatten))

example : sha256 "" = "e3b0c44298fc1c149afbf4c8996fb92427ae41e4649b934ca495991b7852b855" := by
  decide

example : sha256 "abc" = "ba7816bf8f01cfea414140de5dae2223b00361a396177a9cb410ff61f20015ad" := by
  decide

/-! ## Kernel-computable rational arithmetic

The standard Rat.add, Rat.mul, Rat.inv of the library are extern functions
whose applications do not reduce definitionally, which would block witness
evaluation.  The operations below build the result with Rat.divInt (which
does reduce) from numerators and denominators; the lemmas qadd_eq, qsub_eq,
qmul_eq, qdiv_eq, qmin_eq in the theorem part prove each one equal to the
corresponding standard operation, so definitions written with them are the
ordinary field operations of the source. -/

/-- Rational addition via divInt. -/
def qadd (a b : ℚ) : ℚ := Rat.divInt (a.num * b.den + b.num * a.den) (a.den * b.den)

/-- Rational subtraction via divInt. -/
def qsub (a b : ℚ) : ℚ := Rat.divInt (a.num * b.den - b.num * a.den) (a.den * b.den)

/-- Rational multiplication via divInt. -/
def qmul (a b : ℚ) : ℚ := Rat.divInt (a.num * b.num) (a.den * b.den)

/-- Rational division via divInt (division by zero yields zero, as in ℚ). -/
def qdiv (a b : ℚ) : ℚ := Rat.divInt (a.num * b.den) (a.den * b.num)

/-- Minimum of two rationals by the order test. -/
def qmin (a b : ℚ) : ℚ := if a ≤ b then a else b

/-- Math.floor of an exact rational: flooring division of numerator by
    denominator. -/
def jsFloor (q : ℚ) : ℤ := Int.fdiv q.num q.den

/-! ## Configuration (CONFIG in App.jsx) -/

/-- CONFIG.H3_RESOLUTION. -/
def H3_RESOLUTION : Nat := 10

/-- CONFIG.MIN_RIDE_POINTS. -/
def MIN_RIDE_POINTS : Nat := 10

/-- CONFIG.MIN_ACCURACY_METERS. -/
def MIN_ACCURACY_METERS : ℚ := 50

/-- CONFIG.UNLOCK_THRESHOLD. -/
def UNLOCK_THRESHOLD : Nat := 3

/-- CONFIG.UNLOCK_WINDOW_DAYS. -/
def UNLOCK_WINDOW_DAYS : Nat := 7

/-- The three activity kinds. -/
inductive Activity where
  | cycling
  | running
  | hiking
deriving DecidableEq, Repr

/-- CONFIG.MAX_SPEED_MS, the activity-specific speed ceiling in meters per second. -/
def MAX_SPEED_MS : Activity → ℚ
  | .cycling => 18
  | .running => 8
  | .hiking => 4

/-! ## Level and XP progress (LEVEL_XP, getLevel, getXpProgress in App.jsx)

JavaScript numbers are IEEE doubles; the only double behavior these two
functions can exercise beyond exact rational arithmetic is division by zero
(yielding NaN or Infinity, both then fed to Math.min).  We model the value
space as rationals extended with NaN and the two infinities; every other
operation involved is exact. -/

/-- Value space of the JavaScript number results of getXpProgress. -/
inductive JSNum where
  | num (q : ℚ)
  | nan
  | inf
  | ninf
deriving DecidableEq, Repr

/-- JavaScript division of finite numbers: division by zero yields NaN (0/0)
    or a signed infinity. -/
def jdivQ (a b : ℚ) : JSNum :=
  if b = 0 then (if a = 0 then .nan else if 0 < a then .inf else .ninf)
  else .num (qdiv a b)

/-- JavaScript multiplication of the quotient by the finite literal 100. -/
def jmul100 : JSNum → JSNum
  | .num q => .num (qmul q 100)
  | .nan => .nan
  | .inf => .inf
  | .ninf => .ninf

/-- Math.min(x, 100): NaN-propagating minimum against the finite literal 100. -/
def jmin100 : JSNum → JSNum
  | .num q => .num (qmin q 100)
  | .nan => .nan
  | .inf => .num 100
  | .ninf => .ninf

/-- LEVEL_XP array of App.jsx. -/
def LEVEL_XP : List ℚ := [0, 100, 250, 500, 1000, 1750, 2750, 4000, 5500, 7500, 10000]

/-- Countdown loop of getLevel: with fuel i+1 it inspects LEVEL_XP[i] and
    returns i+2 on success, matching `for (let i = 10; i >= 0; i--) if (xp >=
    LEVEL_XP[i]) return i+1`; exhausted fuel is the final `return 1`. -/
def getLevelLoop (xp : ℚ) : Nat → Nat
  | 0 => 1
  | i + 1 => if LEVEL_XP.getD i 0 ≤ xp then i + 1 else getLevelLoop xp i

/-- getLevel of App.jsx. -/
def getLevel (xp : ℚ) : Nat := getLevelLoop xp 11

/-- getXpProgress of App.jsx:
    `curr = LEVEL_XP[lvl-1] || 0`, `next = LEVEL_XP[lvl] || LEVEL_XP[10]`,
    `Math.min(((xp-curr)/(next-curr))*100, 100)`.  An out-of-range index gives
    undefined, which is falsy exactly like the value 0, so both are modelled
    by getD with default 0 followed by the falsy test. -/
def getXpProgress (xp : ℚ) : JSNum :=
  let lvl := getLevel xp
  let curr := LEVEL_XP.getD (lvl - 1) 0
  let nextRaw := LEVEL_XP.getD lvl 0
  let next := if nextRaw = 0 then LEVEL_XP.getD (LEVEL_XP.length - 1) 0 else nextRaw
  jmin100 (jmul100 (jdivQ (qsub xp curr) (qsub next curr)))

/-- The property claimed of getXpProgress: the result is a plain number
    between 0 and 100 inclusive. -/
def XpInRange (v : JSNum) : Prop := ∃ q : ℚ, v = .num q ∧ 0 ≤ q ∧ q ≤ 100

/-! ## Unlock evaluator (SummaryPage recentCount / unlocked in App.jsx)

`rides` is the current owner ride history, already containing the newly
completed ride (it is prepended in `end` before the summary page renders).
Timestamps are milliseconds since the epoch. -/

/-- The fields of a persisted ride row consulted by the unlock evaluator. -/
structure RideRow where
  route_signature : String
  started_at : ℤ
deriving DecidableEq, Repr

/-- recentCount of SummaryPage: rides sharing the signature of the last ride
    whose start time is at least `Date.now() - 7*86400000`. -/
def recentCount (rides : List RideRow) (sig : String) (now : ℤ) : Nat :=
  (rides.filter fun r =>
    r.route_signature == sig && decide (now - 7 * 86400000 ≤ r.started_at)).length

/-- The unlocked flag of SummaryPage: `recentCount >= 3`. -/
def unlockedB (rides : List RideRow) (sig : String) (now : ℤ) : Bool :=
  decide (3 ≤ recentCount rides sig now)

/-! ## Recording session model (RidePage in App.jsx)

The RidePage keeps, for the lifetime of one session: the mutable refs
startRef (start instant), pausedRef (accumulated paused milliseconds),
pauseRef (instant of the current pause), pointsRef (accepted samples), the
state `cells` (a JS Set of visited hex cell ids, insertion ordered), and
`stats` (distance in meters, duration in seconds, tiles, speed in km/h).

Two collaborators are abstracted as an environment:
 - `cellOf` models latLngToCell of h3-js (a pure indexing function);
 - `dist` models the haversine helper (transcendental arithmetic whose only
   property used by any claim is that a great-circle distance is a number;
   nonnegativity is taken as an explicit hypothesis where needed).

`stats.duration` is the float `(Date.now() - startRef - pausedRef)/1000`; we
store the exact numerator `durationMs` and divide only where the source does.
Timestamps are integer milliseconds. -/

/-- A location sample as built in the watchPosition callback:
    `{ lat, lng, ts: Date.now(), acc: coords.accuracy }`. -/
structure Pt where
  lat : ℚ
  lng : ℚ
  ts : ℤ
  acc : ℚ
deriving DecidableEq, Repr

/-- External collaborators and the selected activity of a session. -/
structure Env where
  cellOf : ℚ → ℚ → Nat → String
  dist : ℚ → ℚ → ℚ → ℚ → ℚ
  act : Activity

/-- Session phase: the location watch and the 1-second timer are active
    exactly in the `recording` phase. -/
inductive Phase where
  | recording
  | paused
deriving DecidableEq, Repr

/-- Qualitative GPS indicator (setGps in the callbacks). -/
inductive Gps where
  | waiting
  | good
  | okay
  | poor
deriving DecidableEq, Repr

/-- The GPS indicator derived from the sample accuracy:
    `acc <= 20 ? good : acc <= 50 ? okay : poor`. -/
def gpsOf (acc : ℚ) : Gps :=
  if acc ≤ 20 then .good else if acc ≤ 50 then .okay else .poor

/-- In-memory state of one recording session. -/
structure S where
  phase : Phase
  startMs : ℤ
  pausedMs : ℤ
  pauseStartMs : ℤ
  points : List Pt
  cells : List String
  distance : ℚ
  durationMs : ℤ
  speedKmh : ℚ
  tiles : Nat
  gps : Gps
deriving DecidableEq, Repr

/-- JS `Set.add`: appends the cell unless already present, preserving the
    first-visit insertion order that `Array.from` later reads back. -/
def insertCell (cs : List String) (c : String) : List String :=
  if c ∈ cs then cs else cs ++ [c]

/-- Implied instantaneous speed between the previous accepted sample and the
    new one: `dt = (pt.ts - last.ts)/1000; spd = dt > 0 ? dist/dt : 0`.
    Rat.divInt n 1000 is the exact quotient n/1000 (Rat.divInt_eq_div). -/
def impliedSpeed (env : Env) (last pt : Pt) : ℚ :=
  let dtSec : ℚ := Rat.divInt (pt.ts - last.ts) 1000
  if 0 < dtSec then qdiv (env.dist last.lat last.lng pt.lat pt.lng) dtSec else 0

/-- The watchPosition callback of `start` (and the identical one of `resume`)
    in App.jsx.  In source order: the GPS indicator is set from the accuracy;
    a sample above MIN_ACCURACY_METERS is dropped; the hex cell is computed
    and added to the cell set (before any speed check); with a previous
    accepted sample, the implied speed is derived and the sample is dropped
    when it exceeds the activity ceiling, else distance and speed are
    accumulated; finally the sample is appended to pointsRef.  The watch is
    cleared outside the recording phase, so the callback cannot run then. -/
def stepGeo (env : Env) (st : S) (pt : Pt) : S :=
  if st.phase ≠ Phase.recording then st
  else if MIN_ACCURACY_METERS < pt.acc then { st with gps := gpsOf pt.acc }
  else
    let cs := insertCell st.cells (env.cellOf pt.lat pt.lng H3_RESOLUTION)
    match st.points.getLast? with
    | none =>
        { st with gps := gpsOf pt.acc, cells := cs, tiles := cs.length,
                  points := st.points ++ [pt] }
    | some last =>
        let d := env.dist last.lat last.lng pt.lat pt.lng
        let spd := impliedSpeed env last pt
        if MAX_SPEED_MS env.act < spd then
          { st with gps := gpsOf pt.acc, cells := cs, tiles := cs.length }
        else
          { st with gps := gpsOf pt.acc, cells := cs, tiles := cs.length,
                    distance := qadd st.distance d,
                    speedKmh := qmul spd (Rat.divInt 36 10),
                    points := st.points ++ [pt] }

/-- One tick of the 1-second interval timer:
    `duration = (Date.now() - startRef - pausedRef) / 1000`. -/
def stepTick (st : S) (t : ℤ) : S :=
  if st.phase = Phase.recording then
    { st with durationMs := t - st.startMs - st.pausedMs }
  else st

/-- The `pause` handler: records the pause instant and stops watch and timer. -/
def stepPause (st : S) (t : ℤ) : S :=
  if st.phase = Phase.recording then
    { st with phase := Phase.paused, pauseStartMs := t }
  else st

/-- The `resume` handler: `if (pauseRef.current) pausedRef.current +=
    Date.now() - pauseRef.current`, then recording restarts.  The truthiness
    guard is the test against 0. -/
def stepResume (st : S) (t : ℤ) : S :=
  if st.phase = Phase.paused then
    { st with phase := Phase.recording,
              pausedMs := if st.pauseStartMs ≠ 0 then st.pausedMs + (t - st.pauseStartMs)
                          else st.pausedMs }
  else st

/-- Events a session processes after `start`: location callbacks, timer
    ticks, and the pause and resume handlers. -/
inductive Ev where
  | geo (pt : Pt)
  | tick (t : ℤ)
  | pauseE (t : ℤ)
  | resumeE (t : ℤ)
deriving DecidableEq, Repr

/-- Event dispatch. -/
def step (env : Env) (st : S) : Ev → S
  | .geo pt => stepGeo env st pt
  | .tick t => stepTick st t
  | .pauseE t => stepPause st t
  | .resumeE t => stepResume st t

/-- The `start` handler: fresh accumulators at the start instant. -/
def initS (t0 : ℤ) : S :=
  { phase := .recording, startMs := t0, pausedMs := 0, pauseStartMs := 0,
    points := [], cells := [], distance := 0, durationMs := 0, speedKmh := 0,
    tiles := 0, gps := .waiting }

/-- A whole session: `start` followed by a list of events. -/
def run (env : Env) (t0 : ℤ) (evs : List Ev) : S :=
  evs.foldl (step env) (initS t0)

/-- The persisted ride record built in `end` (the user id and the ended_at
    wall-clock string are identity passthroughs no claim consults). -/
structure Ride where
  activity_type : Activity
  started_at : ℤ
  duration_sec : ℤ
  distance_m : ℤ
  route_signature : String
  tiles_touched : Nat
deriving DecidableEq, Repr

/-- Route fingerprint: `sha256(cellArr.join(','))` over the insertion-ordered
    distinct cell list. -/
def routeFingerprint (cells : List String) : String :=
  sha256 (String.intercalate "," cells)

/-- The `end(save)` handler.  The result is the ride record handed to the
    persistence collaborator (`supabase.from('rides').insert`), or none when
    the session is discarded or has fewer than MIN_RIDE_POINTS accepted
    samples.  `Math.floor` on the nonarithmetic-error floats is the rational
    floor; on `stats.duration = durationMs/1000` it is flooring division. -/
def endSession (env : Env) (save : Bool) (st : S) : Option Ride :=
  if !save then none
  else if st.points.length < MIN_RIDE_POINTS then none
  else some
    { activity_type := env.act,
      started_at := st.startMs,
      duration_sec := Int.fdiv st.durationMs 1000,
      distance_m := jsFloor st.distance,
      route_signature := routeFingerprint st.cells,
      tiles_touched := st.cells.length }

/-! ## Timing side conditions for duration claims

`wfTimely` packages what the host runtime guarantees about a session trace:
event times never go backwards, callbacks of a stopped watch or cleared
timer do not fire, the start instant is a positive epoch time (Date.now()),
and setInterval fires within 1000 ms: whenever recording stops (a pause or
the end), the current 1-second timer was started or last fired less than
1000 ms ago.  `mark` tracks that last tick-or-(re)start instant and
`resumes` counts resume transitions. -/

/-- Ghost trace state for the timing side conditions. -/
structure Tr where
  lastT : ℤ
  mark : ℤ
  phase : Phase
  resumes : Nat
  ok : Bool
deriving Repr

/-- Ghost step checking one event. -/
def trStep (g : Tr) : Ev → Tr
  | .geo pt =>
      { g with lastT := pt.ts,
               ok := g.ok && decide (g.lastT ≤ pt.ts) && decide (g.phase = Phase.recording) }
  | .tick t =>
      { g with lastT := t, mark := t,
               ok := g.ok && decide (g.lastT ≤ t) && decide (g.phase = Phase.recording) }
  | .pauseE t =>
      { g with lastT := t, phase := .paused,
               ok := g.ok && decide (g.lastT ≤ t) && decide (g.phase = Phase.recording) &&
                     decide (t - g.mark < 1000) }
  | .resumeE t =>
      { g with lastT := t, mark := t, phase := .recording, resumes := g.resumes + 1,
               ok := g.ok && decide (g.lastT ≤ t) && decide (g.phase = Phase.paused) }

/-- Initial ghost state. -/
def trInit (t0 : ℤ) : Tr :=
  { lastT := t0, mark := t0, phase := .recording, resumes := 0, ok := decide (0 < t0) }

/-- Ghost run over a trace. -/
def trRun (t0 : ℤ) (evs : List Ev) : Tr := evs.foldl trStep (trInit t0)

/-- The full timing side condition for a session observed at instant tEnd. -/
def wfTimely (t0 : ℤ) (evs : List Ev) (tEnd : ℤ) : Bool :=
  let g := trRun t0 evs
  g.ok && decide (g.lastT ≤ tEnd) &&
    (decide (g.phase = Phase.paused) || decide (tEnd - g.mark < 1000))

/-- Cumulative paused time at instant tEnd, counting a still-open pause up to
    tEnd. -/
def totalPausedMs (st : S) (tEnd : ℤ) : ℤ :=
  st.pausedMs + (if st.phase = Phase.paused then tEnd - st.pauseStartMs else 0)

/-- Wall-clock time from start to tEnd minus cumulative paused time. -/
def idealMs (st : S) (tEnd : ℤ) : ℤ :=
  tEnd - st.startMs - totalPausedMs st tEnd

/-! ## Path distance of the accepted-sample sequence -/

/-- Sum of collaborator distances over consecutive accepted samples. -/
def pathDist (env : Env) : List Pt → ℚ
  | [] => 0
  | [_] => 0
  | a :: b :: r => env.dist a.lat a.lng b.lat b.lng + pathDist env (b :: r)

/-- Distance from the last element of a list to a new point (0 for an empty
    list). -/
def distLast (env : Env) (xs : List Pt) (p : Pt) : ℚ :=
  match xs.getLast? with
  | none => 0
  | some l => env.dist l.lat l.lng p.lat p.lng

/-! ## Concrete environments and scenario inputs used by witnesses and
counterexamples -/

/-- A trivial environment: one cell everywhere, zero distances. -/
def envC : Env := { cellOf := fun _ _ _ => "", dist := fun _ _ _ _ => 0, act := .cycling }

/-- An environment whose indexer distinguishes two cells by latitude sign. -/
def envAB : Env :=
  { cellOf := fun la _ _ => if la ≤ 0 then "a" else "b", dist := fun _ _ _ _ => 0,
    act := .cycling }

/-- Like envAB but every hop measures 100 meters. -/
def envFast : Env :=
  { cellOf := fun la _ _ => if la ≤ 0 then "a" else "b", dist := fun _ _ _ _ => 100,
    act := .cycling }

/-- One cell everywhere, one meter per hop. -/
def envOne : Env := { cellOf := fun _ _ _ => "c", dist := fun _ _ _ _ => 1, act := .cycling }

/-- One cell everywhere, ten meters per hop (the spec scenario geometry). -/
def envTen : Env := { cellOf := fun _ _ _ => "a", dist := fun _ _ _ _ => 10, act := .cycling }

/-- Sample in the southern cell at t = 1000 ms. -/
def pA : Pt := ⟨0, 0, 1000, 10⟩

/-- Sample in the northern cell at t = 2000 ms. -/
def pB : Pt := ⟨1, 0, 2000, 10⟩

/-- Sample in the northern cell at t = 1000 ms (reversed traversal). -/
def qB : Pt := ⟨1, 0, 1000, 10⟩

/-- Sample in the southern cell at t = 2000 ms (reversed traversal). -/
def qA : Pt := ⟨0, 0, 2000, 10⟩

/-- Owner history for the unlock scenario: three rides with one signature
    started at day 0, day 3 and day 6 (in milliseconds). -/
def demoRides : List RideRow :=
  [⟨"s", 0⟩, ⟨"s", 3 * 86400000⟩, ⟨"s", 6 * 86400000⟩]

/-- Twelve samples at 2-second intervals with accuracy 15 m. -/
def evs12 : List Ev := (List.range 12).map fun i => Ev.geo ⟨0, 0, 2000 * (i : ℤ), 15⟩

/-- Ten accepted samples at 2-second intervals. -/
def geo10 : List Ev := (List.range 10).map fun i => Ev.geo ⟨0, 0, 2000 * (i : ℤ), 10⟩

/-- Session trace: ten samples, then a timer tick at 100 s. -/
def trFast : List Ev := geo10 ++ [Ev.tick 100000]

/-- Session trace: the same ten samples, then a timer tick at 200 s. -/
def trSlow : List Ev := geo10 ++ [Ev.tick 200000]

/-- Timing trace losing almost one second at the pause and almost another at
    the end: tick at 1001, pause at 2000 (999 ms after the tick), resume at
    3001, end observed at 4000 (999 ms after the resume restarted the timer). -/
def evsLate : List Ev := [Ev.tick 1001, Ev.pauseE 2000, Ev.resumeE 3001]

/-- Inductive invariant tying the ghost timing state to the session state:
    phases agree, the start instant is fixed and positive, time never ran
    backwards, and the duration shown at the last timer mark undershoots the
    ideal recording time by a bounded slack (at most one second per recording
    segment entered so far). -/
def TInv (t0 : ℤ) (g : Tr) (σ : S) : Prop :=
  σ.phase = g.phase ∧ σ.startMs = t0 ∧ 0 < t0 ∧ t0 ≤ g.lastT ∧
  (g.phase = Phase.recording →
    g.mark ≤ g.lastT ∧
    0 ≤ g.mark - σ.startMs - σ.pausedMs - σ.durationMs ∧
    g.mark - σ.startMs - σ.pausedMs - σ.durationMs ≤ 1000 * (g.resumes : ℤ)) ∧
  (g.phase = Phase.paused →
    σ.pauseStartMs ≤ g.lastT ∧ 0 < σ.pauseStartMs ∧
    0 ≤ σ.pauseStartMs - σ.startMs - σ.pausedMs - σ.durationMs ∧
    σ.pauseStartMs - σ.startMs - σ.pausedMs - σ.durationMs < 1000 * ((g.resumes : ℤ) + 1))

/-! ## Helper lemmas -/

/-- qadd is rational addition. -/
lemma qadd_eq (a b : ℚ) : qadd a b = a + b := by
  have ha : (a.den : ℚ) ≠ 0 := Nat.cast_ne_zero.2 a.den_nz
  have hb : (b.den : ℚ) ≠ 0 := Nat.cast_ne_zero.2 b.den_nz
  rw [qadd, Rat.divInt_eq_div]
  conv_rhs => rw [← Rat.num_div_den a, ← Rat.num_div_den b, div_add_div _ _ ha hb]
  push_cast
  ring_nf

/-- qsub is rational subtraction. -/
lemma qsub_eq (a b : ℚ) : qsub a b = a - b := by
  have ha : (a.den : ℚ) ≠ 0 := Nat.cast_ne_zero.2 a.den_nz
  have hb : (b.den : ℚ) ≠ 0 := Nat.cast_ne_zero.2 b.den_nz
  rw [qsub, Rat.divInt_eq_div]
  conv_rhs => rw [← Rat.num_div_den a, ← Rat.num_div_den b, div_sub_div _ _ ha hb]
  push_cast
  ring_nf

/-- qmul is rational multiplication. -/
lemma qmul_eq (a b : ℚ) : qmul a b = a * b := by
  have ha : (a.den : ℚ) ≠ 0 := Nat.cast_ne_zero.2 a.den_nz
  have hb : (b.den : ℚ) ≠ 0 := Nat.cast_ne_zero.2 b.den_nz
  rw [qmul, Rat.divInt_eq_div]
  conv_rhs => rw [← Rat.num_div_den a, ← Rat.num_div_den b, div_mul_div_comm]
  push_cast
  ring_nf

/-- qdiv is rational division. -/
lemma qdiv_eq (a b : ℚ) : qdiv a b = a / b := by
  rcases eq_or_ne b 0 with rfl | hb
  · show Rat.divInt (a.num * (0 : ℚ).den) (a.den * (0 : ℚ).num) = a / 0
    norm_num
  · have ha : (a.den : ℚ) ≠ 0 := Nat.cast_ne_zero.2 a.den_nz
    have hbd : (b.den : ℚ) ≠ 0 := Nat.cast_ne_zero.2 b.den_nz
    have hbn : (b.num : ℚ) ≠ 0 := by
      exact_mod_cast Rat.num_ne_zero.2 hb
    rw [qdiv, Rat.divInt_eq_div]
    conv_rhs => rw [← Rat.num_div_den a, ← Rat.num_div_den b, div_div_div_comm]
    push_cast
    rw [div_div_eq_mul_div, div_mul_eq_mul_div, div_div]
    ring_nf

/-- qmin is the rational minimum. -/
lemma qmin_eq (a b : ℚ) : qmin a b = min a b := (min_def a b).symm

/-- jsFloor is the rational floor. -/
lemma jsFloor_eq (q : ℚ) : jsFloor q = ⌊q⌋ := by
  rw [jsFloor, Rat.floor_def, Int.fdiv_eq_ediv _ (Int.natCast_nonneg q.den)]

/-- Membership survives a JS Set insertion. -/
lemma mem_insertCell {cs : List String} {c : String} (c0 : String) (h : c0 ∈ cs) :
    c0 ∈ insertCell cs c := by
  unfold insertCell
  split
  · exact h
  · exact List.mem_append_left _ h

/-- Case equation of stepGeo: outside the recording phase the watch is
    cleared, nothing happens. -/
lemma stepGeo_not_recording {env : Env} {st : S} {pt : Pt}
    (h : st.phase ≠ Phase.recording) : stepGeo env st pt = st := by
  simp [stepGeo, h]

/-- Case equation of stepGeo: accuracy rejection only touches the GPS
    indicator. -/
lemma stepGeo_acc_reject {env : Env} {st : S} {pt : Pt}
    (h1 : st.phase = Phase.recording) (h2 : MIN_ACCURACY_METERS < pt.acc) :
    stepGeo env st pt = { st with gps := gpsOf pt.acc } := by
  simp [stepGeo, h1, h2]

/-- Case equation of stepGeo: the first accepted sample adds its cell and is
    appended, with no distance yet. -/
lemma stepGeo_first {env : Env} {st : S} {pt : Pt}
    (h1 : st.phase = Phase.recording) (h2 : ¬ MIN_ACCURACY_METERS < pt.acc)
    (hL : st.points.getLast? = none) :
    stepGeo env st pt =
      { st with gps := gpsOf pt.acc,
                cells := insertCell st.cells (env.cellOf pt.lat pt.lng H3_RESOLUTION),
                tiles := (insertCell st.cells (env.cellOf pt.lat pt.lng H3_RESOLUTION)).length,
                points := st.points ++ [pt] } := by
  simp [stepGeo, h1, h2, hL]

/-- Case equation of stepGeo: a speed-rejected sample still adds its cell
    (the cell insertion precedes the speed check) but neither distance nor
    the sample sequence changes. -/
lemma stepGeo_speed_reject {env : Env} {st : S} {pt last : Pt}
    (h1 : st.phase = Phase.recording) (h2 : ¬ MIN_ACCURACY_METERS < pt.acc)
    (hL : st.points.getLast? = some last)
    (hs : MAX_SPEED_MS env.act < impliedSpeed env last pt) :
    stepGeo env st pt =
      { st with gps := gpsOf pt.acc,
                cells := insertCell st.cells (env.cellOf pt.lat pt.lng H3_RESOLUTION),
                tiles := (insertCell st.cells (env.cellOf pt.lat pt.lng H3_RESOLUTION)).length } := by
  simp [stepGeo, h1, h2, hL, hs]

/-- Case equation of stepGeo: a fully accepted sample adds its cell,
    accumulates distance and speed, and is appended. -/
lemma stepGeo_accept {env : Env} {st : S} {pt last : Pt}
    (h1 : st.phase = Phase.recording) (h2 : ¬ MIN_ACCURACY_METERS < pt.acc)
    (hL : st.points.getLast? = some last)
    (hs : ¬ MAX_SPEED_MS env.act < impliedSpeed env last pt) :
    stepGeo env st pt =
      { st with gps := gpsOf pt.acc,
                cells := insertCell st.cells (env.cellOf pt.lat pt.lng H3_RESOLUTION),
                tiles := (insertCell st.cells (env.cellOf pt.lat pt.lng H3_RESOLUTION)).length,
                distance := qadd st.distance (env.dist last.lat last.lng pt.lat pt.lng),
                speedKmh := qmul (impliedSpeed env last pt) (Rat.divInt 36 10),
                points := st.points ++ [pt] } := by
  simp [stepGeo, h1, h2, hL, hs]

/-! ## C1: unlock evaluator -/

/-- C1: the unlock evaluator reports unlocked exactly when the number of the
    owner rides (the new one included) sharing the new ride fingerprint and
    starting within the trailing 7 days of now reaches the threshold 3; three
    same-fingerprint rides at day 0, 3 and 6 evaluated at day 6 give
    unlocked with count 3, and evaluated at day 8 give not unlocked. -/
theorem C1_unlock_evaluator :
    (∀ (rides : List RideRow) (sig : String) (now : ℤ),
      unlockedB rides sig now = true ↔
        UNLOCK_THRESHOLD ≤ rides.countP
          (fun r => decide (r.route_signature = sig ∧ now - 7 * 86400000 ≤ r.started_at))) ∧
    unlockedB demoRides "s" (6 * 86400000) = true ∧
    recentCount demoRides "s" (6 * 86400000) = 3 ∧
    unlockedB demoRides "s" (8 * 86400000) = false := by
  refine ⟨?_, by decide, by decide, by decide⟩
  intro rides sig now
  have hp : (fun r : RideRow =>
        r.route_signature == sig && decide (now - 7 * 86400000 ≤ r.started_at)) =
      (fun r : RideRow =>
        decide (r.route_signature = sig ∧ now - 7 * 86400000 ≤ r.started_at)) := by
    funext r
    by_cases h : r.route_signature = sig <;> simp [h]
  unfold unlockedB recentCount
  rw [List.countP_eq_length_filter, hp]
  exact decide_eq_true_iff

/-! ## C4: accuracy gate -/

/-- C4: a sample whose accuracy exceeds the configured maximum of 50 meters
    is rejected: cumulative distance, the accepted-sample sequence and the
    visited cell set are all unchanged. -/
theorem C4_accuracy_gate (env : Env) (st : S) (pt : Pt)
    (h : MIN_ACCURACY_METERS < pt.acc) :
    (stepGeo env st pt).distance = st.distance ∧
    (stepGeo env st pt).points = st.points ∧
    (stepGeo env st pt).cells = st.cells := by
  by_cases h1 : st.phase = Phase.recording
  · rw [stepGeo_acc_reject h1 h]
    exact ⟨rfl, rfl, rfl⟩
  · rw [stepGeo_not_recording h1]
    exact ⟨rfl, rfl, rfl⟩

/-- Witness for C4 at a concrete 60-meter-accuracy sample. -/
theorem C4_accuracy_gate_witness :
    MIN_ACCURACY_METERS < (⟨0, 0, 0, 60⟩ : Pt).acc ∧
    ((stepGeo envC (initS 1) ⟨0, 0, 0, 60⟩).distance = (initS 1).distance ∧
     (stepGeo envC (initS 1) ⟨0, 0, 0, 60⟩).points = (initS 1).points ∧
     (stepGeo envC (initS 1) ⟨0, 0, 0, 60⟩).cells = (initS 1).cells) :=
  ⟨by decide, C4_accuracy_gate envC (initS 1) ⟨0, 0, 0, 60⟩ (by decide)⟩

/-! ## C5: persistence gate -/

/-- C5: ending a session hands a ride to the persistence collaborator if and
    only if it is a save and at least MIN_RIDE_POINTS samples were accepted;
    discarding or a short session yields no persisted ride. -/
theorem C5_persistence_gate (env : Env) (save : Bool) (st : S) :
    (endSession env save st).isSome =
      (save && decide (MIN_RIDE_POINTS ≤ st.points.length)) := by
  cases save
  · simp [endSession]
  · by_cases h : st.points.length < MIN_RIDE_POINTS
    · simp [endSession, h, Nat.not_le.2 h]
    · simp [endSession, h, Nat.le_of_not_lt h]

/-! ## C9: monotonicity of the location callback -/

/-- C9: each processed location callback leaves the cumulative distance
    non-decreasing (great-circle distances being nonnegative), grows the
    visited cell set, and only appends to the accepted-sample sequence. -/
theorem C9_monotone_callback (env : Env) (st : S) (pt : Pt)
    (hd : ∀ a b c d, 0 ≤ env.dist a b c d) :
    st.distance ≤ (stepGeo env st pt).distance ∧
    (∀ c, c ∈ st.cells → c ∈ (stepGeo env st pt).cells) ∧
    ∃ suf, (stepGeo env st pt).points = st.points ++ suf := by
  by_cases h1 : st.phase = Phase.recording
  · by_cases h2 : MIN_ACCURACY_METERS < pt.acc
    · rw [stepGeo_acc_reject h1 h2]
      exact ⟨le_rfl, fun c hc => hc, ⟨[], by simp⟩⟩
    · rcases hL : st.points.getLast? with _ | last
      · rw [stepGeo_first h1 h2 hL]
        exact ⟨le_rfl, fun c hc => mem_insertCell c hc, ⟨[pt], rfl⟩⟩
      · by_cases hs : MAX_SPEED_MS env.act < impliedSpeed env last pt
        · rw [stepGeo_speed_reject h1 h2 hL hs]
          exact ⟨le_rfl, fun c hc => mem_insertCell c hc, ⟨[], by simp⟩⟩
        · rw [stepGeo_accept h1 h2 hL hs]
          refine ⟨?_, fun c hc => mem_insertCell c hc, ⟨[pt], rfl⟩⟩
          show st.distance ≤ qadd st.distance _
          rw [qadd_eq]
          exact le_add_of_nonneg_right (hd _ _ _ _)
  · rw [stepGeo_not_recording h1]
    exact ⟨le_rfl, fun c hc => hc, ⟨[], by simp⟩⟩

/-- Witness for C9 at a concrete state and sample. -/
theorem C9_monotone_callback_witness :
    (∀ a b c d, 0 ≤ envC.dist a b c d) ∧
    ((initS 1).distance ≤ (stepGeo envC (initS 1) pA).distance ∧
     (∀ c, c ∈ (initS 1).cells → c ∈ (stepGeo envC (initS 1) pA).cells) ∧
     ∃ suf, (stepGeo envC (initS 1) pA).points = (initS 1).points ++ suf) :=
  ⟨fun _ _ _ _ => le_rfl, C9_monotone_callback envC (initS 1) pA (fun _ _ _ _ => le_rfl)⟩

/-! ## C3: speed ceiling -/

/-- C3 counterexample: a sample with in-range accuracy whose implied speed
    (100 m/s, cycling ceiling 18 m/s) is rejected, distance and samples are
    untouched, yet the visited cell set IS mutated: the callback inserts the
    hex cell before the speed check. -/
theorem C3_counterexample :
    (run envFast 1 [Ev.geo pA]).phase = Phase.recording ∧
    pB.acc ≤ MIN_ACCURACY_METERS ∧
    (run envFast 1 [Ev.geo pA]).points.getLast? = some pA ∧
    MAX_SPEED_MS envFast.act < impliedSpeed envFast pA pB ∧
    (stepGeo envFast (run envFast 1 [Ev.geo pA]) pB).distance =
      (run envFast 1 [Ev.geo pA]).distance ∧
    (stepGeo envFast (run envFast 1 [Ev.geo pA]) pB).points =
      (run envFast 1 [Ev.geo pA]).points ∧
    (stepGeo envFast (run envFast 1 [Ev.geo pA]) pB).cells ≠
      (run envFast 1 [Ev.geo pA]).cells := by
  decide

/-- C3 amended: a speed-rejected sample leaves distance and the
    accepted-sample sequence unchanged, but the visited cell set receives
    the sample cell (inserted before the speed check), rather than staying
    unchanged as claimed. -/
theorem C3_amended (env : Env) (st : S) (pt last : Pt)
    (h1 : st.phase = Phase.recording)
    (h2 : pt.acc ≤ MIN_ACCURACY_METERS)
    (hL : st.points.getLast? = some last)
    (hs : MAX_SPEED_MS env.act < impliedSpeed env last pt) :
    (stepGeo env st pt).distance = st.distance ∧
    (stepGeo env st pt).points = st.points ∧
    (stepGeo env st pt).cells =
      insertCell st.cells (env.cellOf pt.lat pt.lng H3_RESOLUTION) := by
  rw [stepGeo_speed_reject h1 (not_lt.2 h2) hL hs]
  exact ⟨rfl, rfl, rfl⟩

/-- Witness for the amended C3 at the counterexample inputs. -/
theorem C3_amended_witness :
    ((run envFast 1 [Ev.geo pA]).phase = Phase.recording ∧
     pB.acc ≤ MIN_ACCURACY_METERS ∧
     (run envFast 1 [Ev.geo pA]).points.getLast? = some pA ∧
     MAX_SPEED_MS envFast.act < impliedSpeed envFast pA pB) ∧
    ((stepGeo envFast (run envFast 1 [Ev.geo pA]) pB).distance =
       (run envFast 1 [Ev.geo pA]).distance ∧
     (stepGeo envFast (run envFast 1 [Ev.geo pA]) pB).points =
       (run envFast 1 [Ev.geo pA]).points ∧
     (stepGeo envFast (run envFast 1 [Ev.geo pA]) pB).cells =
       insertCell (run envFast 1 [Ev.geo pA]).cells
         (envFast.cellOf pB.lat pB.lng H3_RESOLUTION)) :=
  ⟨⟨by decide, by decide, by decide, by decide⟩,
   C3_amended envFast (run envFast 1 [Ev.geo pA]) pB pA
     (by decide) (by decide) (by decide) (by decide)⟩

/-! ## C8: saved ride scenario -/

/-- C8: a saved session with enough samples persists tiles_touched equal to
    the number of distinct visited cells; in the spec scenario of 12 samples
    at 2-second intervals, accuracy 15 m and implied speed 5 m/s (cycling),
    all 12 samples are accepted, the distance is 110 m, and the saved ride
    has tiles_touched equal to the distinct cell count. -/
theorem C8_save_scenario :
    (∀ (env : Env) (st : S), ¬ st.points.length < MIN_RIDE_POINTS →
      (endSession env true st).map (fun r => r.tiles_touched) = some st.cells.length) ∧
    (run envTen 1 evs12).points.length = 12 ∧
    (run envTen 1 evs12).distance = 110 ∧
    1 ≤ (run envTen 1 evs12).cells.length ∧
    (endSession envTen true (run envTen 1 evs12)).map (fun r => r.tiles_touched) =
      some (run envTen 1 evs12).cells.length := by
  refine ⟨?_, by decide, by decide, by decide, by decide⟩
  intro env st h
  simp [endSession, h]

/-- Witness for the universally quantified part of C8 at the scenario state. -/
theorem C8_save_scenario_witness :
    (¬ (run envTen 1 evs12).points.length < MIN_RIDE_POINTS) ∧
    (endSession envTen true (run envTen 1 evs12)).map (fun r => r.tiles_touched) =
      some (run envTen 1 evs12).cells.length :=
  ⟨by decide, C8_save_scenario.1 envTen (run envTen 1 evs12) (by decide)⟩

/-! ## C2: route fingerprint and traversal order -/

/-- C2 counterexample: two sessions visiting the identical set of distinct
    cells in opposite first-touch orders. The digest input is the
    first-visit-ordered join, so the two fingerprints (real SHA-256 values)
    differ, refuting order-independence. -/
theorem C2_counterexample :
    (run envAB 1 [Ev.geo pA, Ev.geo pB]).cells.toFinset =
      (run envAB 1 [Ev.geo qB, Ev.geo qA]).cells.toFinset ∧
    routeFingerprint (run envAB 1 [Ev.geo pA, Ev.geo pB]).cells ≠
      routeFingerprint (run envAB 1 [Ev.geo qB, Ev.geo qA]).cells := by
  refine ⟨by decide, by decide⟩

/-- C2 amended: the fingerprint is a pure function of the sequence of
    distinct visited cells in first-visit order (not of the unordered set):
    sessions whose first-visit cell sequences coincide get equal
    fingerprints. -/
theorem C2_amended (env env2 : Env) (t0 t02 : ℤ) (evs evs2 : List Ev)
    (h : (run env t0 evs).cells = (run env2 t02 evs2).cells) :
    routeFingerprint (run env t0 evs).cells =
      routeFingerprint (run env2 t02 evs2).cells := by
  rw [h]

/-- Witness for the amended C2: two sessions with the same first-visit cell
    sequence. -/
theorem C2_amended_witness :
    (run envAB 1 [Ev.geo pA, Ev.geo pB]).cells =
      (run envAB 5 [Ev.geo pA, Ev.geo pB, Ev.geo pA]).cells ∧
    routeFingerprint (run envAB 1 [Ev.geo pA, Ev.geo pB]).cells =
      routeFingerprint (run envAB 5 [Ev.geo pA, Ev.geo pB, Ev.geo pA]).cells :=
  ⟨by decide,
   C2_amended envAB envAB 1 5 [Ev.geo pA, Ev.geo pB]
     [Ev.geo pA, Ev.geo pB, Ev.geo pA] (by decide)⟩

/-! ## C7: what the saved ride fields are derived from -/

/-- Appending a sample adds the distance from the previous last sample. -/
lemma pathDist_append (env : Env) (p : Pt) :
    ∀ xs, pathDist env (xs ++ [p]) = pathDist env xs + distLast env xs p := by
  intro xs
  induction xs with
  | nil => simp [pathDist, distLast]
  | cons a xs ih =>
    cases xs with
    | nil => simp [pathDist, distLast]
    | cons b r =>
      simp only [List.cons_append, List.append_eq, pathDist, distLast,
        List.getLast?_cons_cons] at ih ⊢
      rw [ih]
      ring

/-- Every event preserves the identity between the accumulated distance and
    the path distance of the accepted samples. -/
lemma step_distance_pathDist (env : Env) (st : S) (e : Ev)
    (h : st.distance = pathDist env st.points) :
    (step env st e).distance = pathDist env (step env st e).points := by
  cases e with
  | geo pt =>
    show (stepGeo env st pt).distance = pathDist env (stepGeo env st pt).points
    by_cases h1 : st.phase = Phase.recording
    · by_cases h2 : MIN_ACCURACY_METERS < pt.acc
      · rw [stepGeo_acc_reject h1 h2]; exact h
      · rcases hL : st.points.getLast? with _ | last
        · rw [stepGeo_first h1 h2 hL]
          have hnil : st.points = [] := List.getLast?_eq_none_iff.1 hL
          show st.distance = pathDist env (st.points ++ [pt])
          rw [hnil] at h ⊢
          simpa [pathDist] using h
        · by_cases hs : MAX_SPEED_MS env.act < impliedSpeed env last pt
          · rw [stepGeo_speed_reject h1 h2 hL hs]; exact h
          · rw [stepGeo_accept h1 h2 hL hs]
            show qadd st.distance _ = pathDist env (st.points ++ [pt])
            rw [qadd_eq, pathDist_append, h]
            simp [distLast, hL]
    · rw [stepGeo_not_recording h1]; exact h
  | tick t =>
    show (stepTick st t).distance = pathDist env (stepTick st t).points
    unfold stepTick
    split <;> exact h
  | pauseE t =>
    show (stepPause st t).distance = pathDist env (stepPause st t).points
    unfold stepPause
    split <;> exact h
  | resumeE t =>
    show (stepResume st t).distance = pathDist env (stepResume st t).points
    unfold stepResume
    split <;> exact h

/-- Over a whole session the accumulated distance is exactly the path
    distance of the accepted-sample sequence. -/
lemma run_distance_pathDist (env : Env) (t0 : ℤ) (evs : List Ev) :
    (run env t0 evs).distance = pathDist env (run env t0 evs).points := by
  suffices haux : ∀ (l : List Ev) (st : S), st.distance = pathDist env st.points →
      (l.foldl (step env) st).distance = pathDist env (l.foldl (step env) st).points by
    exact haux evs (initS t0) rfl
  intro l
  induction l with
  | nil => intro st h; exact h
  | cons e rest ih => intro st h; exact ih _ (step_distance_pathDist env st e h)

/-- C7 counterexample: two sessions with the same ten accepted samples but
    different timer histories save equal distance_m and different
    duration_sec, refuting that duration_sec is derived solely from the
    accepted samples. -/
theorem C7_counterexample :
    (run envOne 1 trFast).points = (run envOne 1 trSlow).points ∧
    (endSession envOne true (run envOne 1 trFast)).map (fun r => r.distance_m) =
      (endSession envOne true (run envOne 1 trSlow)).map (fun r => r.distance_m) ∧
    (endSession envOne true (run envOne 1 trFast)).map (fun r => r.duration_sec) ≠
      (endSession envOne true (run envOne 1 trSlow)).map (fun r => r.duration_sec) := by
  refine ⟨by decide, by decide, by decide⟩

/-- C7 amended: distance_m is derived solely from the accepted samples (two
    sessions with the same accepted-sample sequence save the same
    distance_m); duration_sec is timer-derived and not a function of the
    samples. -/
theorem C7_amended (env : Env) (t0 t02 : ℤ) (evs evs2 : List Ev)
    (h : (run env t0 evs).points = (run env t02 evs2).points) :
    (endSession env true (run env t0 evs)).map (fun r => r.distance_m) =
      (endSession env true (run env t02 evs2)).map (fun r => r.distance_m) := by
  have d1 := run_distance_pathDist env t0 evs
  have d2 := run_distance_pathDist env t02 evs2
  by_cases hc : (run env t02 evs2).points.length < MIN_RIDE_POINTS
  · simp [endSession, h, hc]
  · simp [endSession, h, hc, d1, d2]

/-- Witness for the amended C7 on two empty sessions. -/
theorem C7_amended_witness :
    (run envC 1 []).points = (run envC 2 []).points ∧
    (endSession envC true (run envC 1 [])).map (fun r => r.distance_m) =
      (endSession envC true (run envC 2 [])).map (fun r => r.distance_m) :=
  ⟨by decide, C7_amended envC 1 2 [] [] (by decide)⟩

/-! ## C6: duration versus wall clock minus paused time -/

/-- The ghost ok flag only ever goes from true to false. -/
lemma trStep_ok_mono (g : Tr) (e : Ev) (h : (trStep g e).ok = true) : g.ok = true := by
  cases e <;> simp only [trStep, Bool.and_eq_true] at h
  · exact h.1.1
  · exact h.1.1
  · exact h.1.1.1
  · exact h.1.1

/-- The ghost ok flag of a whole trace implies the flag at its start. -/
lemma foldl_ok_mono (evs : List Ev) (g : Tr)
    (h : (evs.foldl trStep g).ok = true) : g.ok = true := by
  induction evs generalizing g with
  | nil => exact h
  | cons e rest ih => exact trStep_ok_mono g e (ih (trStep g e) h)

/-- The location callback never touches the timing bookkeeping. -/
lemma stepGeo_timing (env : Env) (st : S) (pt : Pt) :
    (stepGeo env st pt).phase = st.phase ∧ (stepGeo env st pt).startMs = st.startMs ∧
    (stepGeo env st pt).pausedMs = st.pausedMs ∧
    (stepGeo env st pt).pauseStartMs = st.pauseStartMs ∧
    (stepGeo env st pt).durationMs = st.durationMs := by
  by_cases h1 : st.phase = Phase.recording
  · by_cases h2 : MIN_ACCURACY_METERS < pt.acc
    · rw [stepGeo_acc_reject h1 h2]; exact ⟨rfl, rfl, rfl, rfl, rfl⟩
    · rcases hL : st.points.getLast? with _ | last
      · rw [stepGeo_first h1 h2 hL]; exact ⟨rfl, rfl, rfl, rfl, rfl⟩
      · by_cases hs : MAX_SPEED_MS env.act < impliedSpeed env last pt
        · rw [stepGeo_speed_reject h1 h2 hL hs]; exact ⟨rfl, rfl, rfl, rfl, rfl⟩
        · rw [stepGeo_accept h1 h2 hL hs]; exact ⟨rfl, rfl, rfl, rfl, rfl⟩
  · rw [stepGeo_not_recording h1]; exact ⟨rfl, rfl, rfl, rfl, rfl⟩

/-- One checked event preserves the timing invariant. -/
lemma TInv_step (env : Env) (t0 : ℤ) (g : Tr) (σ : S) (e : Ev)
    (hI : TInv t0 g σ) (hok : (trStep g e).ok = true) :
    TInv t0 (trStep g e) (step env σ e) := by
  obtain ⟨hph, hst, ht0, hlt, hrec, hpau⟩ := hI
  cases e with
  | geo pt =>
    have hc : g.lastT ≤ pt.ts ∧ g.phase = Phase.recording := by
      simp only [trStep, Bool.and_eq_true, decide_eq_true_iff] at hok
      exact ⟨hok.1.2, hok.2⟩
    obtain ⟨hle, hgrec⟩ := hc
    obtain ⟨e1, e2, e3, e4, e5⟩ := stepGeo_timing env σ pt
    obtain ⟨hmk, hs0, hs1⟩ := hrec hgrec
    refine ⟨?_, ?_, ht0, ?_, ?_, ?_⟩
    · dsimp only [trStep, step]
      rw [e1, hph]
    · dsimp only [step]
      rw [e2, hst]
    · dsimp only [trStep]
      omega
    · intro _
      refine ⟨?_, ?_, ?_⟩
      · dsimp only [trStep]; omega
      · dsimp only [trStep, step]; rw [e2, e3, e5]; omega
      · dsimp only [trStep, step]; rw [e2, e3, e5]; omega
    · intro hcon
      dsimp only [trStep] at hcon
      rw [hgrec] at hcon
      exact absurd hcon (by decide)
  | tick t =>
    have hc : g.lastT ≤ t ∧ g.phase = Phase.recording := by
      simp only [trStep, Bool.and_eq_true, decide_eq_true_iff] at hok
      exact ⟨hok.1.2, hok.2⟩
    obtain ⟨hle, hgrec⟩ := hc
    obtain ⟨hmk, hs0, hs1⟩ := hrec hgrec
    have hσrec : σ.phase = Phase.recording := by rw [hph, hgrec]
    have hσ : step env σ (Ev.tick t) = { σ with durationMs := t - σ.startMs - σ.pausedMs } := by
      show stepTick σ t = _
      rw [stepTick, if_pos hσrec]
    rw [hσ]
    refine ⟨?_, ?_, ht0, ?_, ?_, ?_⟩
    · dsimp only [trStep]
      exact hph
    · exact hst
    · dsimp only [trStep]
      omega
    · intro _
      refine ⟨?_, ?_, ?_⟩ <;> dsimp only [trStep] <;> omega
    · intro hcon
      dsimp only [trStep] at hcon
      rw [hgrec] at hcon
      exact absurd hcon (by decide)
  | pauseE t =>
    have hc : g.lastT ≤ t ∧ g.phase = Phase.recording ∧ t - g.mark < 1000 := by
      simp only [trStep, Bool.and_eq_true, decide_eq_true_iff] at hok
      exact ⟨hok.1.1.2, hok.1.2, hok.2⟩
    obtain ⟨hle, hgrec, htm⟩ := hc
    obtain ⟨hmk, hs0, hs1⟩ := hrec hgrec
    have hσrec : σ.phase = Phase.recording := by rw [hph, hgrec]
    have hσ : step env σ (Ev.pauseE t) =
        { σ with phase := Phase.paused, pauseStartMs := t } := by
      show stepPause σ t = _
      rw [stepPause, if_pos hσrec]
    rw [hσ]
    refine ⟨?_, ?_, ht0, ?_, ?_, ?_⟩
    · dsimp only [trStep]
    · exact hst
    · dsimp only [trStep]
      omega
    · intro hcon
      dsimp only [trStep] at hcon
      exact absurd hcon (by decide)
    · intro _
      refine ⟨?_, ?_, ?_, ?_⟩ <;> dsimp only [trStep] <;> omega
  | resumeE t =>
    have hc : g.lastT ≤ t ∧ g.phase = Phase.paused := by
      simp only [trStep, Bool.and_eq_true, decide_eq_true_iff] at hok
      exact ⟨hok.1.2, hok.2⟩
    obtain ⟨hle, hgpau⟩ := hc
    obtain ⟨hps_le, hps_pos, hp0, hp1⟩ := hpau hgpau
    have hσpau : σ.phase = Phase.paused := by rw [hph, hgpau]
    have hne : σ.pauseStartMs ≠ 0 := by omega
    have hσ : step env σ (Ev.resumeE t) =
        { σ with phase := Phase.recording,
                 pausedMs := σ.pausedMs + (t - σ.pauseStartMs) } := by
      show stepResume σ t = _
      rw [stepResume, if_pos hσpau, if_pos hne]
    rw [hσ]
    refine ⟨?_, ?_, ht0, ?_, ?_, ?_⟩
    · dsimp only [trStep]
    · exact hst
    · dsimp only [trStep]
      omega
    · intro _
      refine ⟨?_, ?_, ?_⟩ <;> dsimp only [trStep] <;> omega
    · intro hcon
      dsimp only [trStep] at hcon
      exact absurd hcon (by decide)

/-- A checked trace preserves the timing invariant. -/
lemma TInv_run (env : Env) (t0 : ℤ) (evs : List Ev) :
    ∀ (g : Tr) (σ : S), TInv t0 g σ → (evs.foldl trStep g).ok = true →
      TInv t0 (evs.foldl trStep g) (evs.foldl (step env) σ) := by
  induction evs with
  | nil => intro g σ h _; exact h
  | cons e rest ih =>
    intro g σ h hok
    have h1 : (trStep g e).ok = true := foldl_ok_mono rest (trStep g e) hok
    exact ih (trStep g e) (step env σ e) (TInv_step env t0 g σ e h h1) hok

/-- C6 counterexample: a session with one pause and resume, all timing side
    conditions satisfied, whose reported duration (1 s) differs from
    wall-clock elapsed minus paused time (2.998 s) by 1.998 s, outside the
    claimed one-second bound. -/
theorem C6_counterexample :
    wfTimely 1 evsLate 4000 = true ∧
    ¬ (|idealMs (run envC 1 evsLate) 4000 - (run envC 1 evsLate).durationMs| ≤ 1000) := by
  refine ⟨by decide, by decide⟩

/-- C6 amended: over any session satisfying the timing side conditions, the
    reported duration never exceeds wall-clock elapsed minus cumulative
    paused time, and undershoots it by less than one second per recording
    segment (one more than the number of resumes); the claimed fixed
    one-second bound holds only for sessions that never pause. -/
theorem C6_amended (env : Env) (t0 : ℤ) (evs : List Ev) (tEnd : ℤ)
    (h : wfTimely t0 evs tEnd = true) :
    0 ≤ idealMs (run env t0 evs) tEnd - (run env t0 evs).durationMs ∧
    idealMs (run env t0 evs) tEnd - (run env t0 evs).durationMs <
      1000 * (((trRun t0 evs).resumes : ℤ) + 1) := by
  have hg : ((trRun t0 evs).ok = true ∧ (trRun t0 evs).lastT ≤ tEnd) ∧
      ((trRun t0 evs).phase = Phase.paused ∨ tEnd - (trRun t0 evs).mark < 1000) := by
    simpa [wfTimely, Bool.and_eq_true, Bool.or_eq_true, decide_eq_true_iff] using h
  obtain ⟨⟨hok, hle⟩, hdis⟩ := hg
  have ht0 : 0 < t0 := by
    have h2 : (trInit t0).ok = true := foldl_ok_mono evs (trInit t0) hok
    simpa [trInit, decide_eq_true_iff] using h2
  have hbase : TInv t0 (trInit t0) (initS t0) := by
    refine ⟨rfl, rfl, ht0, le_rfl, ?_, ?_⟩
    · intro _
      refine ⟨le_rfl, ?_, ?_⟩ <;> dsimp only [trInit, initS] <;> omega
    · intro hcon
      simp [trInit] at hcon
  have hInv : TInv t0 (trRun t0 evs) (run env t0 evs) :=
    TInv_run env t0 evs (trInit t0) (initS t0) hbase hok
  obtain ⟨hph, hst, _, hlt, hrecI, hpauI⟩ := hInv
  cases hcase : (trRun t0 evs).phase with
  | recording =>
    have h1000 : tEnd - (trRun t0 evs).mark < 1000 := by
      rcases hdis with hp | hp
      · rw [hcase] at hp; exact absurd hp (by decide)
      · exact hp
    obtain ⟨hmk, hs0, hs1⟩ := hrecI hcase
    have hphase : ¬ (run env t0 evs).phase = Phase.paused := by
      rw [hph, hcase]; decide
    unfold idealMs totalPausedMs
    rw [if_neg hphase]
    omega
  | paused =>
    obtain ⟨hps_le, hps_pos, hp0, hp1⟩ := hpauI hcase
    have hphase : (run env t0 evs).phase = Phase.paused := by rw [hph, hcase]
    unfold idealMs totalPausedMs
    rw [if_pos hphase]
    omega

/-- Witness for the amended C6 on a short session with no pause. -/
theorem C6_amended_witness :
    wfTimely 1 ([] : List Ev) 500 = true ∧
    (0 ≤ idealMs (run envC 1 []) 500 - (run envC 1 []).durationMs ∧
     idealMs (run envC 1 []) 500 - (run envC 1 []).durationMs <
       1000 * (((trRun 1 ([] : List Ev)).resumes : ℤ) + 1)) :=
  ⟨by decide, C6_amended envC 1 [] 500 (by decide)⟩

/-! ## C10: bounds of getXpProgress -/

/-- Unrolled form of the countdown loop of getLevel. -/
lemma getLevel_eval (xp : ℚ) : getLevel xp =
    if (10000:ℚ) ≤ xp then 11
    else if (7500:ℚ) ≤ xp then 10
    else if (5500:ℚ) ≤ xp then 9
    else if (4000:ℚ) ≤ xp then 8
    else if (2750:ℚ) ≤ xp then 7
    else if (1750:ℚ) ≤ xp then 6
    else if (1000:ℚ) ≤ xp then 5
    else if (500:ℚ) ≤ xp then 4
    else if (250:ℚ) ≤ xp then 3
    else if (100:ℚ) ≤ xp then 2
    else if (0:ℚ) ≤ xp then 1
    else 1 := rfl

/-- Evaluation of getXpProgress once the level is known. -/
lemma getXpProgress_at (xp : ℚ) (k : Nat) (hk : getLevel xp = k) :
    getXpProgress xp =
      jmin100 (jmul100 (jdivQ (qsub xp (LEVEL_XP.getD (k - 1) 0))
        (qsub (if LEVEL_XP.getD k 0 = 0 then LEVEL_XP.getD (LEVEL_XP.length - 1) 0
               else LEVEL_XP.getD k 0) (LEVEL_XP.getD (k - 1) 0)))) := by
  unfold getXpProgress
  rw [hk]

/-- Inside a level bracket the progress value is a plain number in [0, 100]. -/
lemma xpBracket (xp curr next : ℚ) (hc : curr ≤ xp) (hn : curr < next) :
    ∃ q, jmin100 (jmul100 (jdivQ (qsub xp curr) (qsub next curr))) = JSNum.num q ∧
      0 ≤ q ∧ q ≤ 100 := by
  have hnz : qsub next curr ≠ 0 := by
    rw [qsub_eq]
    exact sub_ne_zero.2 (ne_of_gt hn)
  refine ⟨qmin (qmul (qdiv (qsub xp curr) (qsub next curr)) 100) 100, ?_, ?_, ?_⟩
  · simp [jdivQ, hnz, jmul100, jmin100]
  · rw [qmin_eq]
    refine le_min ?_ (by norm_num)
    rw [qmul_eq, qdiv_eq, qsub_eq, qsub_eq]
    have h1 : (0:ℚ) ≤ xp - curr := sub_nonneg.2 hc
    have h2 : (0:ℚ) < next - curr := sub_pos.2 hn
    exact mul_nonneg (div_nonneg h1 h2.le) (by norm_num)
  · rw [qmin_eq]
    exact min_le_right _ _

/-- C10 counterexample: at xp = 10000 (the highest LEVEL_XP threshold) the
    divisor next - curr is 0, the JavaScript quotient is 0/0 = NaN, and
    Math.min(NaN, 100) is NaN, not a number between 0 and 100. -/
theorem C10_counterexample :
    (0:ℚ) ≤ 10000 ∧ getXpProgress 10000 = JSNum.nan ∧
      ¬ XpInRange (getXpProgress 10000) := by
  refine ⟨by norm_num, by decide, ?_⟩
  rintro ⟨q, hq, -, -⟩
  rw [show getXpProgress 10000 = JSNum.nan from by decide] at hq
  exact JSNum.noConfusion hq

/-- C10 amended: for every nonnegative xp other than exactly 10000,
    getXpProgress xp is a number between 0 and 100 inclusive (above 10000
    the quotient is Infinity and Math.min caps it at 100); at xp = 10000 it
    is NaN. -/
theorem C10_amended (xp : ℚ) (h0 : 0 ≤ xp) (hne : xp ≠ 10000) :
    XpInRange (getXpProgress xp) := by
  rcases le_or_lt 10000 xp with h11 | h11
  · have hgt : (10000:ℚ) < xp := lt_of_le_of_ne h11 (Ne.symm hne)
    have hl : getLevel xp = 11 := by rw [getLevel_eval, if_pos h11]
    rw [getXpProgress_at xp 11 hl]
    norm_num [LEVEL_XP]
    have hz : qsub (10000:ℚ) 10000 = 0 := by rw [qsub_eq]; ring
    have hpos : 0 < qsub xp 10000 := by rw [qsub_eq]; linarith
    rw [hz]
    refine ⟨100, ?_, by norm_num, le_rfl⟩
    simp [jdivQ, hpos.ne', hpos, jmul100, jmin100]
  · rcases le_or_lt 7500 xp with h10 | h10
    · have hl : getLevel xp = 10 := by
        rw [getLevel_eval, if_neg (not_le.2 h11), if_pos h10]
      rw [getXpProgress_at xp 10 hl]
      norm_num [LEVEL_XP]
      exact xpBracket xp 7500 10000 h10 (by norm_num)
    · rcases le_or_lt 5500 xp with h9 | h9
      · have hl : getLevel xp = 9 := by
          rw [getLevel_eval, if_neg (not_le.2 h11), if_neg (not_le.2 h10), if_pos h9]
        rw [getXpProgress_at xp 9 hl]
        norm_num [LEVEL_XP]
        exact xpBracket xp 5500 7500 h9 (by norm_num)
      · rcases le_or_lt 4000 xp with h8 | h8
        · have hl : getLevel xp = 8 := by
            rw [getLevel_eval, if_neg (not_le.2 h11), if_neg (not_le.2 h10),
              if_neg (not_le.2 h9), if_pos h8]
          rw [getXpProgress_at xp 8 hl]
          norm_num [LEVEL_XP]
          exact xpBracket xp 4000 5500 h8 (by norm_num)
        · rcases le_or_lt 2750 xp with h7 | h7
          · have hl : getLevel xp = 7 := by
              rw [getLevel_eval, if_neg (not_le.2 h11), if_neg (not_le.2 h10),
                if_neg (not_le.2 h9), if_neg (not_le.2 h8), if_pos h7]
            rw [getXpProgress_at xp 7 hl]
            norm_num [LEVEL_XP]
            exact xpBracket xp 2750 4000 h7 (by norm_num)
          · rcases le_or_lt 1750 xp with h6 | h6
            · have hl : getLevel xp = 6 := by
                rw [getLevel_eval, if_neg (not_le.2 h11), if_neg (not_le.2 h10),
                  if_neg (not_le.2 h9), if_neg (not_le.2 h8), if_neg (not_le.2 h7),
                  if_pos h6]
              rw [getXpProgress_at xp 6 hl]
              norm_num [LEVEL_XP]
              exact xpBracket xp 1750 2750 h6 (by norm_num)
            · rcases le_or_lt 1000 xp with h5 | h5
              · have hl : getLevel xp = 5 := by
                  rw [getLevel_eval, if_neg (not_le.2 h11), if_neg (not_le.2 h10),
                    if_neg (not_le.2 h9), if_neg (not_le.2 h8), if_neg (not_le.2 h7),
                    if_neg (not_le.2 h6), if_pos h5]
                rw [getXpProgress_at xp 5 hl]
                norm_num [LEVEL_XP]
                exact xpBracket xp 1000 1750 h5 (by norm_num)
              · rcases le_or_lt 500 xp with h4 | h4
                · have hl : getLevel xp = 4 := by
                    rw [getLevel_eval, if_neg (not_le.2 h11), if_neg (not_le.2 h10),
                      if_neg (not_le.2 h9), if_neg (not_le.2 h8), if_neg (not_le.2 h7),
                      if_neg (not_le.2 h6), if_neg (not_le.2 h5), if_pos h4]
                  rw [getXpProgress_at xp 4 hl]
                  norm_num [LEVEL_XP]
                  exact xpBracket xp 500 1000 h4 (by norm_num)
                · rcases le_or_lt 250 xp with h3 | h3
                  · have hl : getLevel xp = 3 := by
                      rw [getLevel_eval, if_neg (not_le.2 h11), if_neg (not_le.2 h10),
                        if_neg (not_le.2 h9), if_neg (not_le.2 h8), if_neg (not_le.2 h7),
                        if_neg (not_le.2 h6), if_neg (not_le.2 h5), if_neg (not_le.2 h4),
                        if_pos h3]
                    rw [getXpProgress_at xp 3 hl]
                    norm_num [LEVEL_XP]
                    exact xpBracket xp 250 500 h3 (by norm_num)
                  · rcases le_or_lt 100 xp with h2 | h2
                    · have hl : getLevel xp = 2 := by
                        rw [getLevel_eval, if_neg (not_le.2 h11), if_neg (not_le.2 h10),
                          if_neg (not_le.2 h9), if_neg (not_le.2 h8), if_neg (not_le.2 h7),
                          if_neg (not_le.2 h6), if_neg (not_le.2 h5), if_neg (not_le.2 h4),
                          if_neg (not_le.2 h3), if_pos h2]
                      rw [getXpProgress_at xp 2 hl]
                      norm_num [LEVEL_XP]
                      exact xpBracket xp 100 250 h2 (by norm_num)
                    · have hl : getLevel xp = 1 := by
                        rw [getLevel_eval, if_neg (not_le.2 h11), if_neg (not_le.2 h10),
                          if_neg (not_le.2 h9), if_neg (not_le.2 h8), if_neg (not_le.2 h7),
                          if_neg (not_le.2 h6), if_neg (not_le.2 h5), if_neg (not_le.2 h4),
                          if_neg (not_le.2 h3), if_neg (not_le.2 h2), if_pos h0]
                      rw [getXpProgress_at xp 1 hl]
                      norm_num [LEVEL_XP]
                      exact xpBracket xp 0 100 h0 (by norm_num)

/-- Witness for the amended C10 at xp = 5000. -/
theorem C10_amended_witness :
    ((0:ℚ) ≤ 5000 ∧ (5000:ℚ) ≠ 10000) ∧ XpInRange (getXpProgress 5000) :=
  ⟨⟨by norm_num, by norm_num⟩, C10_amended 5000 (by norm_num) (by norm_num)⟩

end TerritoryCycle
